import Mathlib

/-!
# Redis device directory (`internal/pkg/infrastructure/redis/device.go`)

A shallow embedding of the device persistence layer: the batched index
commands (`sendAddDeviceCmd`, `sendDeleteDeviceCmd`), the write operations
(`addDevice`, `updateDevice`, `deleteDevice`) and the tree queries
(`deviceTreeLevel`, `deviceSubTree`, `deviceTree`).

Modelling conventions.

* The Redis server is a value of type `Store`.  String keys, hashes and
  sorted sets are kept in three separate maps, so a command never meets a key
  of another Redis type.  A missing key and an empty hash / sorted set are the
  same thing, as in Redis.
* Connection faults are not modelled: every command reaches the server, and a
  `MULTI` ... `EXEC` block applies its queued commands in order, as one step.
* The commands queued with `conn.Send` are collected in a list (`List Cmd`)
  that `EXEC` runs.
* `pkgCommon.MakeTimestamp()` is the argument `ts` of the operation that
  reads the clock.
* Go `int` is 64 bits wide; `uint32(n)` is `n % 2 ^ 32`.
-/

namespace RedisDevice

/-! ## Data model -/

/-- The fields of `models.Device` that the persistence layer reads or writes. -/
structure Device where
  Id : String
  Name : String
  ServiceName : String
  ProfileName : String
  Parent : String
  Labels : List String
  Created : Int
  Modified : Int
deriving DecidableEq, Repr

/-- Error kinds (`errors.Kind...`) that the device functions can return. -/
inductive Kind where
  | ContractInvalid
  | DatabaseError
  | DuplicateName
  | EntityDoesNotExist
  | StatusConflict
  | NotFound
deriving DecidableEq, Repr

/-- The bytes held under a string key: either the JSON encoding of a device or
bytes that `json.Unmarshal` rejects. -/
inductive Payload where
  | json (d : Device)
  | garbage
deriving DecidableEq, Repr

/-- The function `json.Marshal` on a device; the encoder has no failing input
among the modelled fields, the `none` branch of its callers is kept. -/
def jsonMarshal (d : Device) : Option Payload := some (Payload.json d)

/-- The function `json.Unmarshal` into a `models.Device`. -/
def jsonUnmarshal : Payload → Option Device
  | Payload.json d => some d
  | Payload.garbage => none

/-- A sorted set: its members with their scores, in rank order. -/
abbrev ZSet := List (String × Int)

/-- The state of the Redis server, with the profile collaborator's answer to
"does this profile exist" in `profiles`. -/
structure Store where
  strings : String → Option Payload
  hashes : String → String → Option String
  zsets : String → ZSet
  profiles : String → Bool

/-- The store with no key at all and no profile. -/
def Store.empty : Store :=
  { strings := fun _ => none, hashes := fun _ _ => none, zsets := fun _ => [],
    profiles := fun _ => false }

/-! ## Redis commands -/

/-- Members of a sorted set, in rank order. -/
def ZSet.members (z : ZSet) : List String := z.map Prod.fst

/-- The command `ZREM key member` on the set stored at the key. -/
def ZSet.rem (member : String) (z : ZSet) : ZSet :=
  z.filter (fun p => decide (p.1 ≠ member))

/-- Insertion of a fresh member at its rank: ascending score, ties broken by
the member string. -/
def ZSet.place (member : String) (score : Int) : ZSet → ZSet
  | [] => [(member, score)]
  | (m, sc) :: rest =>
    if score < sc ∨ (score = sc ∧ member < m) then (member, score) :: (m, sc) :: rest
    else (m, sc) :: ZSet.place member score rest

/-- The command `ZADD key score member`: the member gets the new score and
moves to the matching rank. -/
def ZSet.add (member : String) (score : Int) (z : ZSet) : ZSet :=
  ZSet.place member score (ZSet.rem member z)

/-- The commands the device functions queue between `MULTI` and `EXEC`. -/
inductive Cmd where
  | SET (key : String) (value : Payload)
  | DEL (key : String)
  | ZADD (key : String) (score : Int) (member : String)
  | ZREM (key : String) (member : String)
  | HSET (key field value : String)
  | HDEL (key field : String)
deriving DecidableEq, Repr

/-- Effect of one command on the server. -/
def Cmd.run : Cmd → Store → Store
  | Cmd.SET key value, s =>
    { s with strings := fun k => if k = key then some value else s.strings k }
  | Cmd.DEL key, s =>
    { s with strings := fun k => if k = key then none else s.strings k }
  | Cmd.ZADD key score member, s =>
    { s with zsets := fun k => if k = key then ZSet.add member score (s.zsets k) else s.zsets k }
  | Cmd.ZREM key member, s =>
    { s with zsets := fun k => if k = key then ZSet.rem member (s.zsets k) else s.zsets k }
  | Cmd.HSET key field value, s =>
    { s with hashes := fun k f =>
        if k = key ∧ f = field then some value else s.hashes k f }
  | Cmd.HDEL key field, s =>
    { s with hashes := fun k f => if k = key ∧ f = field then none else s.hashes k f }

/-- The block `MULTI; queue...; EXEC`: the queued commands run in order. -/
def EXEC (queue : List Cmd) (s : Store) : Store :=
  queue.foldl (fun acc c => c.run acc) s

/-! ## Keys -/

/-- Modelled from the spec: `DBKeySeparator`, the fixed separator of key
parts (section 4.1), declared outside the shown files. -/
def DBKeySeparator : String := ":"

/-- Modelled from the spec: `CreateKey`, the key built from a collection name
and a discriminant joined by the separator (section 4.1), declared outside the
shown files. -/
def CreateKey (collection discriminant : String) : String :=
  collection ++ DBKeySeparator ++ discriminant

def DeviceCollection : String := "md|dv"
def DeviceCollectionName : String := DeviceCollection ++ DBKeySeparator ++ "name"
def DeviceCollectionLabel : String := DeviceCollection ++ DBKeySeparator ++ "label"
def DeviceCollectionParent : String := DeviceCollection ++ DBKeySeparator ++ "parent"
def DeviceCollectionServiceName : String :=
  DeviceCollection ++ DBKeySeparator ++ "service" ++ DBKeySeparator ++ "name"
def DeviceCollectionProfileName : String :=
  DeviceCollection ++ DBKeySeparator ++ "profile" ++ DBKeySeparator ++ "name"

/-- The device's stored key: collection name and object id. -/
def deviceStoredKey (id : String) : String := CreateKey DeviceCollection id

/-! ## Existence checks and point reads -/

/-- Modelled from the spec: `objectNameExists`, the point check against a
name-to-key hash (section 4.2), declared outside the shown files. -/
def objectNameExists (s : Store) (hashKey name : String) : Except Kind Bool :=
  Except.ok (s.hashes hashKey name).isSome

/-- Modelled from the spec: `objectIdExists`, the point check against the
primary key (section 4.2), declared outside the shown files. -/
def objectIdExists (s : Store) (storedKey : String) : Except Kind Bool :=
  Except.ok (s.strings storedKey).isSome

/-- Modelled from the spec: `deviceProfileNameExists`, the profile
collaborator's predicate (sections 4.2 and 6), declared outside the shown
files. -/
def deviceProfileNameExists (s : Store) (name : String) : Except Kind Bool :=
  Except.ok (s.profiles name)

/-- Modelled from the spec: `getObjectById`, a point read plus deserialize: a
missing key is a not-found error, bytes that do not parse are a
`DatabaseError` (section 4.4), declared outside the shown files. -/
def getObjectById (s : Store) (storedKey : String) : Except Kind Device :=
  match s.strings storedKey with
  | none => Except.error Kind.NotFound
  | some bytes =>
    match jsonUnmarshal bytes with
    | none => Except.error Kind.DatabaseError
    | some d => Except.ok d

/-- Modelled from the spec: `getObjectByHash`, the read of the stored key
from the name hash followed by the point read (section 4.4), declared outside
the shown files. -/
def getObjectByHash (s : Store) (hashKey field : String) : Except Kind Device :=
  match s.hashes hashKey field with
  | none => Except.error Kind.NotFound
  | some storedKey => getObjectById s storedKey

/-- Modelled from the spec: `getMemberNumber` with `ZCARD`, the number of
members of a sorted set (section 4.4, Delete), declared outside the shown
files. -/
def getMemberNumber (s : Store) (key : String) : Except Kind Nat :=
  Except.ok (s.zsets key).length

/-- Modelled from the spec: the fetch of the primary records of a list of
stored keys; a member without a record fails the read (section 4.5, "fetch
all members"), declared outside the shown files. -/
def getObjectsByIds (s : Store) : List String → Except Kind (List Payload)
  | [] => Except.ok []
  | k :: rest =>
    match s.strings k with
    | none => Except.error Kind.DatabaseError
    | some bytes =>
      match getObjectsByIds s rest with
      | Except.error e => Except.error e
      | Except.ok objs => Except.ok (bytes :: objs)

/-- Modelled from the spec: `intersectionObjectsByKeys` over the whole range:
the members of the first sorted set that belong to every other one (AND
semantics, section 4.5), with their records, declared outside the shown
files. -/
def intersectionObjectsByKeys (s : Store) : List String → Except Kind (List Payload)
  | [] => Except.ok []
  | key :: others =>
    getObjectsByIds s
      ((ZSet.members (s.zsets key)).filter
        (fun m => others.all (fun k => decide (m ∈ ZSet.members (s.zsets k)))))

def deviceNameExists (s : Store) (name : String) : Except Kind Bool :=
  match objectNameExists s DeviceCollectionName name with
  | Except.error _ => Except.error Kind.DatabaseError
  | Except.ok exists_ => Except.ok exists_

def deviceIdExists (s : Store) (id : String) : Except Kind Bool :=
  match objectIdExists s (deviceStoredKey id) with
  | Except.error _ => Except.error Kind.DatabaseError
  | Except.ok exists_ => Except.ok exists_

/-! ## Index maintenance and writes -/

/-- What an operation hands back: the server state it leaves, its value and
its error (`none` for success). -/
structure Reply (α : Type) where
  store : Store
  value : α
  err : Option Kind

/-- The commands `sendAddDeviceCmd` queues for a device, or the error of a
failed marshal. -/
def sendAddDeviceCmd (storedKey : String) (d : Device) : Except Kind (List Cmd) :=
  match jsonMarshal d with
  | none => Except.error Kind.ContractInvalid
  | some dsJSONBytes =>
    Except.ok
      ([Cmd.SET storedKey dsJSONBytes,
        Cmd.ZADD DeviceCollection 0 storedKey,
        Cmd.HSET DeviceCollectionName d.Name storedKey,
        Cmd.ZADD (CreateKey DeviceCollectionServiceName d.ServiceName) d.Modified storedKey,
        Cmd.ZADD (CreateKey DeviceCollectionProfileName d.ProfileName) d.Modified storedKey]
        ++ d.Labels.map
            (fun label => Cmd.ZADD (CreateKey DeviceCollectionLabel label) d.Modified storedKey)
        ++ (if d.Parent ≠ "" then
              [Cmd.ZADD (CreateKey DeviceCollectionParent d.Parent) d.Modified storedKey]
            else []))

/-- The second half of `addDevice`: the id and name checks, the timestamps and
the batch. -/
def addDeviceChecked (s : Store) (ts : Int) (d : Device) : Reply Device :=
  match deviceIdExists s d.Id with
  | Except.error e => { store := s, value := d, err := some e }
  | Except.ok true => { store := s, value := d, err := some Kind.DuplicateName }
  | Except.ok false =>
    match deviceNameExists s d.Name with
    | Except.error e => { store := s, value := d, err := some e }
    | Except.ok true => { store := s, value := d, err := some Kind.DuplicateName }
    | Except.ok false =>
      let d1 : Device := if d.Created = 0 then { d with Created := ts } else d
      let d2 : Device := { d1 with Modified := ts }
      let storedKey := deviceStoredKey d2.Id
      match sendAddDeviceCmd storedKey d2 with
      | Except.error e => { store := s, value := d2, err := some e }
      | Except.ok queue => { store := EXEC queue s, value := d2, err := none }

/-- Adds a new device into the database. -/
def addDevice (s : Store) (ts : Int) (d : Device) : Reply Device :=
  if d.ProfileName ≠ "" then
    match deviceProfileNameExists s d.ProfileName with
    | Except.error e => { store := s, value := d, err := some e }
    | Except.ok false => { store := s, value := d, err := some Kind.EntityDoesNotExist }
    | Except.ok true => addDeviceChecked s ts d
  else addDeviceChecked s ts d

/-- Query a device by id. -/
def deviceById (s : Store) (id : String) : Except Kind Device :=
  getObjectById s (deviceStoredKey id)

/-- Query a device by name. -/
def deviceByName (s : Store) (name : String) : Except Kind Device :=
  getObjectByHash s DeviceCollectionName name

/-- The commands `sendDeleteDeviceCmd` queues for a device. -/
def sendDeleteDeviceCmd (storedKey : String) (device : Device) : List Cmd :=
  [Cmd.DEL storedKey,
   Cmd.ZREM DeviceCollection storedKey,
   Cmd.HDEL DeviceCollectionName device.Name,
   Cmd.ZREM (CreateKey DeviceCollectionServiceName device.ServiceName) storedKey,
   Cmd.ZREM (CreateKey DeviceCollectionProfileName device.ProfileName) storedKey]
   ++ device.Labels.map (fun label => Cmd.ZREM (CreateKey DeviceCollectionLabel label) storedKey)
   ++ (if device.Parent ≠ "" then
         [Cmd.ZREM (CreateKey DeviceCollectionParent device.Parent) storedKey]
       else [])

/-- Deletes a device. -/
def deleteDevice (s : Store) (device : Device) : Reply Unit :=
  match getMemberNumber s (CreateKey DeviceCollectionParent device.Name) with
  | Except.error _ => { store := s, value := (), err := some Kind.DatabaseError }
  | Except.ok numChildren =>
    if numChildren > 0 then { store := s, value := (), err := some Kind.StatusConflict }
    else
      let storedKey := deviceStoredKey device.Id
      { store := EXEC (sendDeleteDeviceCmd storedKey device) s, value := (), err := none }

/-- Deletes the device by id. -/
def deleteDeviceById (s : Store) (id : String) : Reply Unit :=
  match deviceById s id with
  | Except.error e => { store := s, value := (), err := some e }
  | Except.ok device => deleteDevice s device

/-- Deletes the device by name. -/
def deleteDeviceByName (s : Store) (name : String) : Reply Unit :=
  match deviceByName s name with
  | Except.error e => { store := s, value := (), err := some e }
  | Except.ok device => deleteDevice s device

/-- The part of `updateDevice` after the profile check. -/
def updateDeviceChecked (s : Store) (ts : Int) (d : Device) : Reply Unit :=
  match deviceByName s d.Name with
  | Except.error e => { store := s, value := (), err := some e }
  | Except.ok oldDevice =>
    let d1 : Device := { d with Modified := ts }
    let storedKey := deviceStoredKey d1.Id
    match sendAddDeviceCmd storedKey d1 with
    | Except.error e => { store := s, value := (), err := some e }
    | Except.ok queue =>
      { store := EXEC (sendDeleteDeviceCmd storedKey oldDevice ++ queue) s, value := (),
        err := none }

/-- Updates a device: the old record's commands are removed and the new
one's added in one batch. -/
def updateDevice (s : Store) (ts : Int) (d : Device) : Reply Unit :=
  if d.ProfileName ≠ "" then
    match deviceProfileNameExists s d.ProfileName with
    | Except.error e => { store := s, value := (), err := some e }
    | Except.ok false => { store := s, value := (), err := some Kind.EntityDoesNotExist }
    | Except.ok true => updateDeviceChecked s ts d
  else updateDeviceChecked s ts d

/-! ## Tree queries -/

/-- The loop of `deviceTreeLevel` over the fetched objects: the first object
that does not parse, or that is its own parent, stops the query. -/
def decodeLevel : List Payload → Except Kind (List Device)
  | [] => Except.ok []
  | obj :: rest =>
    match jsonUnmarshal obj with
    | none => Except.error Kind.DatabaseError
    | some d =>
      if d.Name = d.Parent then Except.error Kind.DatabaseError
      else
        match decodeLevel rest with
        | Except.error e => Except.error e
        | Except.ok ds => Except.ok (d :: ds)

/-- The keys `deviceTreeLevel` intersects: the parent index, then one label
index per label. -/
def levelQueryList (parent : String) (labels : List String) : List String :=
  labels.foldl (fun queryList l => queryList ++ [CreateKey DeviceCollectionLabel l])
    [CreateKey DeviceCollectionParent parent]

/-- All devices with the given parent and labels (one level of the tree). -/
def deviceTreeLevel (s : Store) (parent : String) (labels : List String) :
    Except Kind (List Device) :=
  match intersectionObjectsByKeys s (levelQueryList parent labels) with
  | Except.error e => Except.error e
  | Except.ok objects => decodeLevel objects

/-- The loop `for i := range devices` of `deviceSubTree`: `remaining` turns
are left, the next one reads `devices[i]` from the list as it stands and
appends that device's subtree.  The index is always in range (the list only
grows); the `none` branch stands for the index panic. -/
def subTreeLoop (subTree : String → Except Kind (List Device)) :
    Nat → Nat → List Device → Except Kind (List Device)
  | 0, _, devices => Except.ok devices
  | remaining + 1, i, devices =>
    match devices[i]? with
    | none => Except.error Kind.DatabaseError
    | some di =>
      match subTree di.Name with
      | Except.error e => Except.error e
      | Except.ok subDevices => subTreeLoop subTree remaining (i + 1) (devices ++ subDevices)

/-- The entire subtree starting with the given parent, descending at most the
given number of levels.  `levels` is the depth counter: the function tests it
against 0 and 1 and passes `levels - 1` down, so the recursion is on the
counter.  Its only caller, `deviceTree`, passes a positive `int`, which is why
the counter is a natural number here. -/
def deviceSubTree (s : Store) (labels : List String) : Nat → String → Except Kind (List Device)
  | 0, _ => Except.ok []
  | 1, parent => deviceTreeLevel s parent labels
  | levels + 2, parent =>
    match deviceTreeLevel s parent labels with
    | Except.error e => Except.error e
    | Except.ok devices =>
      subTreeLoop (fun name => deviceSubTree s labels (levels + 1) name) devices.length 0 devices

/-- The constant `math.MaxInt` of a 64-bit platform. -/
def MaxInt : Int := 2 ^ 63 - 1

/-- The conversion `uint32(n)` of a length. -/
def toUint32 (n : Nat) : Nat := n % 2 ^ 32

/-- The slice expression `a[lo:hi]`; `none` is the run-time panic for bounds
outside `0 <= lo <= hi <= len(a)`. -/
def goSlice (a : List Device) (lo hi : Int) : Option (List Device) :=
  if 0 ≤ lo ∧ lo ≤ hi ∧ hi ≤ a.length then some ((a.drop lo.toNat).take (hi - lo).toNat)
  else none

/-- What `deviceTree` returns: the total, the page and the error. -/
structure TreeReply where
  total : Nat
  page : List Device
  err : Option Kind
deriving DecidableEq, Repr

/-- The full result set, then the subset that corresponds to the requested
offset and limit; `none` is a slice panic. -/
def deviceTree (s : Store) (parent : String) (levels offset limit : Int)
    (labels : List String) : Option TreeReply :=
  let emptyList : List Device := []
  let maxLevels : Int := if levels ≤ 0 then MaxInt else levels
  match deviceSubTree s labels maxLevels.toNat parent with
  | Except.error e => some { total := 0, page := emptyList, err := some e }
  | Except.ok all_devices =>
    let offset1 : Int := if offset < 0 then 0 else offset
    if offset1 ≥ all_devices.length then
      some { total := toUint32 all_devices.length, page := emptyList, err := none }
    else
      let numToReturn : Int := all_devices.length - offset1
      let numToReturn1 : Int := if limit > 0 ∧ limit < numToReturn then limit else numToReturn
      match goSlice all_devices offset1 (offset1 + numToReturn1) with
      | none => none
      | some page => some { total := toUint32 all_devices.length, page := page, err := none }

/-! ## Specification-level definitions -/

/-- The subtrees of a list of devices, one after the other, as section 4.5
words the loop of the subtree query: for every member found, fetch its
subtree and append all results; the first failing fetch fails the whole. -/
def appendSubTrees (subTree : String → Except Kind (List Device)) :
    List Device → Except Kind (List Device)
  | [] => Except.ok []
  | m :: rest =>
    match subTree m.Name with
    | Except.error e => Except.error e
    | Except.ok subDevices =>
      match appendSubTrees subTree rest with
      | Except.error e => Except.error e
      | Except.ok more => Except.ok (subDevices ++ more)

/-- The parents whose level `deviceSubTree s labels levels parent` asks for:
`parent` itself when `levels` is not 0, and, when `levels` is at least 2, the
parents asked for below each member of the level of `parent`. -/
def Fetches (s : Store) (labels : List String) : Nat → String → String → Prop
  | 0, _, _ => False
  | 1, parent, q => q = parent
  | levels + 2, parent, q =>
    q = parent ∨
      ∃ ms, deviceTreeLevel s parent labels = Except.ok ms ∧
        ∃ m, m ∈ ms ∧ Fetches s labels (levels + 1) m.Name q

/-! ## Stores used in examples -/

/-- Equality of results is decidable when that of errors and values is. -/
instance instDecidableEqExcept {ε α : Type} [DecidableEq ε] [DecidableEq α] :
    DecidableEq (Except ε α)
  | Except.ok a, Except.ok b =>
    if h : a = b then isTrue (by rw [h]) else isFalse (fun h2 => h (Except.ok.inj h2))
  | Except.error a, Except.error b =>
    if h : a = b then isTrue (by rw [h]) else isFalse (fun h2 => h (Except.error.inj h2))
  | Except.ok _, Except.error _ => isFalse (fun h => by cases h)
  | Except.error _, Except.ok _ => isFalse (fun h => by cases h)

/-- A device with the given id, name and parent and nothing else set. -/
def plainDevice (id name parent : String) : Device :=
  { Id := id, Name := name, ServiceName := "", ProfileName := "", Parent := parent,
    Labels := [], Created := 0, Modified := 0 }

/-- A store built with four `addDevice` calls and two `updateDevice` calls
that rename: two devices named "a" whose parent is "b" and two devices named
"b" whose parent is "a". -/
def twinStore : Store :=
  let s1 := (addDevice Store.empty 1 (plainDevice "1" "a" "b")).store
  let s2 := (addDevice s1 2 (plainDevice "2" "a2" "b")).store
  let s3 := (addDevice s2 3 (plainDevice "3" "b" "a")).store
  let s4 := (addDevice s3 4 (plainDevice "4" "b2" "a")).store
  let s5 := (updateDevice s4 5 (plainDevice "2" "a" "b")).store
  (updateDevice s5 6 (plainDevice "4" "b" "a")).store

/-- A store with one device that is its own parent, written by `addDevice`. -/
def selfParentStore : Store :=
  (addDevice Store.empty 1 (plainDevice "1" "a" "a")).store

/-- The sorted-set keys under which `sendAddDeviceCmd` files a device, with
the scores, in the order of the commands. -/
def indexEntries (d : Device) : List (String × Int) :=
  [(DeviceCollection, 0),
   (CreateKey DeviceCollectionServiceName d.ServiceName, d.Modified),
   (CreateKey DeviceCollectionProfileName d.ProfileName, d.Modified)]
  ++ d.Labels.map (fun label => (CreateKey DeviceCollectionLabel label, d.Modified))
  ++ (if d.Parent ≠ "" then [(CreateKey DeviceCollectionParent d.Parent, d.Modified)] else [])

/-- The sorted-set keys a device is filed under. -/
def indexKeys (d : Device) : List String := (indexEntries d).map Prod.fst

/-- The device that `addDevice` stores: `Created` stamped when unset,
`Modified` stamped. -/
def stamped (ts : Int) (d : Device) : Device :=
  { (if d.Created = 0 then { d with Created := ts } else d) with Modified := ts }

/-- The calls that write to the device directory. -/
inductive Op where
  | add (ts : Int) (d : Device)
  | update (ts : Int) (d : Device)
  | deleteById (id : String)
  | deleteByName (name : String)

/-- The store a call leaves, whether it succeeds or fails. -/
def Op.run : Op → Store → Store
  | Op.add ts d, s => (addDevice s ts d).store
  | Op.update ts d, s => (updateDevice s ts d).store
  | Op.deleteById id, s => (deleteDeviceById s id).store
  | Op.deleteByName name, s => (deleteDeviceByName s name).store

/-- The store after a sequence of calls. -/
def runOps (ops : List Op) (s : Store) : Store := ops.foldl (fun acc op => op.run acc) s

/-- A store reached from the empty one in which the stored key "md|dv:1" is
left in the index of label "x" without a primary record: device 1 is added
with label "x", device 2 is added, an update payload with id 1 and the name of
device 2 rewrites the record of device 1, and device 1 is deleted. -/
def orphanStore : Store :=
  runOps
    [Op.add 1 { plainDevice "1" "a" "" with Labels := ["x"] },
     Op.add 2 (plainDevice "2" "b" ""),
     Op.update 3 (plainDevice "1" "b" ""),
     Op.deleteById "1"]
    Store.empty

theorem subTreeLoop_eq (f : String → Except Kind (List Device)) :
    ∀ (ms pre acc : List Device),
      subTreeLoop f ms.length pre.length (pre ++ ms ++ acc) =
        match appendSubTrees f ms with
        | Except.error e => Except.error e
        | Except.ok more => Except.ok (pre ++ ms ++ acc ++ more) := by
  intro ms
  induction ms with
  | nil => intro pre acc; simp [subTreeLoop, appendSubTrees]
  | cons m rest ih =>
    intro pre acc
    have hget : (pre ++ m :: rest ++ acc)[pre.length]? = some m := by
      rw [List.append_assoc, List.getElem?_append_right (le_refl _)]
      simp
    simp only [List.length_cons, subTreeLoop, hget, appendSubTrees]
    cases hf : f m.Name with
    | error e => rfl
    | ok sub =>
      have h := ih (pre ++ [m]) (acc ++ sub)
      simp only [List.length_append, List.length_singleton, List.append_assoc,
        List.singleton_append] at h
      simp only [List.append_assoc, List.cons_append]
      simp only [List.cons_append] at h
      rw [h]
      cases appendSubTrees f rest with
      | error e => rfl
      | ok more => simp

theorem deviceSubTree_succ_succ (s : Store) (labels : List String) (n : Nat) (parent : String) :
    deviceSubTree s labels (n + 2) parent =
      match deviceTreeLevel s parent labels with
      | Except.error e => Except.error e
      | Except.ok ms =>
        match appendSubTrees (fun name => deviceSubTree s labels (n + 1) name) ms with
        | Except.error e => Except.error e
        | Except.ok more => Except.ok (ms ++ more) := by
  rw [deviceSubTree]
  cases deviceTreeLevel s parent labels with
  | error e => rfl
  | ok ms =>
    have h := subTreeLoop_eq (fun name => deviceSubTree s labels (n + 1) name) ms [] []
    simp only [List.length_nil, List.nil_append, List.append_nil] at h
    simp only [h]

theorem appendSubTrees_of_forall₂ (f : String → Except Kind (List Device)) :
    ∀ (ms : List Device) (subs : List (List Device)),
      List.Forall₂ (fun m sub => f m.Name = Except.ok sub) ms subs →
      appendSubTrees f ms = Except.ok subs.flatten := by
  intro ms subs h
  induction h with
  | nil => rfl
  | cons h1 _ ih => simp [appendSubTrees, h1, ih]

/-! ## Pagination of `deviceTree` -/

theorem deviceTree_of_subTree (s : Store) (parent : String) (levels offset limit : Int)
    (labels : List String) (L : List Device)
    (hL : deviceSubTree s labels (if levels ≤ 0 then MaxInt else levels).toNat parent
      = Except.ok L) :
    deviceTree s parent levels offset limit labels =
      some { total := toUint32 L.length,
             page := if max offset 0 ≥ (L.length : Int) then []
               else (L.drop (max offset 0).toNat).take
                 (if 0 < limit ∧ limit < (L.length : Int) - max offset 0 then limit
                  else (L.length : Int) - max offset 0).toNat,
             err := none } := by
  have hmax : (if offset < 0 then (0 : Int) else offset) = max offset 0 := by
    split_ifs with h
    · exact (max_eq_right (le_of_lt h)).symm
    · exact (max_eq_left (not_lt.mp h)).symm
  simp only [deviceTree, hL, hmax, ge_iff_le, gt_iff_lt]
  by_cases h : (L.length : Int) ≤ max offset 0
  · simp [h]
  · simp only [h, if_false]
    have h0 : (0 : Int) ≤ max offset 0 := le_max_right _ _
    have hlt : max offset 0 < (L.length : Int) := not_le.mp h
    have hslice : ∀ k : Int, 0 ≤ k → max offset 0 + k ≤ L.length →
        goSlice L (max offset 0) (max offset 0 + k)
          = some ((L.drop (max offset 0).toNat).take k.toNat) := by
      intro k hk hle
      have : 0 ≤ max offset 0 ∧ max offset 0 ≤ max offset 0 + k ∧
          max offset 0 + k ≤ (L.length : Int) := ⟨h0, by omega, hle⟩
      simp [goSlice, this]
    by_cases hl : 0 < limit ∧ limit < (L.length : Int) - max offset 0
    · simp only [hl, and_self, if_true]
      rw [hslice limit (le_of_lt hl.1) (by omega)]
    · simp only [hl, if_false]
      rw [hslice _ (by omega) (by omega)]


/-! ## A store whose subtrees double with every level -/

theorem twinStore_level_a :
    deviceTreeLevel twinStore "a" [] =
      Except.ok [{ plainDevice "3" "b" "a" with Created := 3, Modified := 3 },
                 { plainDevice "4" "b" "a" with Modified := 6 }] := by
  decide

theorem twinStore_level_b :
    deviceTreeLevel twinStore "b" [] =
      Except.ok [{ plainDevice "1" "a" "b" with Created := 1, Modified := 1 },
                 { plainDevice "2" "a" "b" with Modified := 5 }] := by
  decide

theorem twinStore_subTree_length : ∀ n : Nat, ∃ La Lb : List Device,
    deviceSubTree twinStore [] n "a" = Except.ok La ∧
    deviceSubTree twinStore [] n "b" = Except.ok Lb ∧
    La.length + 2 = 2 ^ (n + 1) ∧ Lb.length + 2 = 2 ^ (n + 1) := by
  intro n
  induction n with
  | zero => exact ⟨[], [], rfl, rfl, rfl, rfl⟩
  | succ n ih =>
    cases n with
    | zero => exact ⟨_, _, twinStore_level_a, twinStore_level_b, rfl, rfl⟩
    | succ m =>
      obtain ⟨La, Lb, ha, hb, hla, hlb⟩ := ih
      have hpow : 2 ^ (m + 1 + 1 + 1) = 2 * 2 ^ (m + 1 + 1) := by ring
      have h1 := deviceSubTree_succ_succ twinStore [] m "a"
      rw [twinStore_level_a] at h1
      simp only [appendSubTrees, plainDevice, hb] at h1
      have h2 := deviceSubTree_succ_succ twinStore [] m "b"
      rw [twinStore_level_b] at h2
      simp only [appendSubTrees, plainDevice, ha] at h2
      refine ⟨_, _, h1, h2, ?_, ?_⟩
      · simp only [List.length_append, List.length_cons, List.length_nil]
        omega
      · simp only [List.length_append, List.length_cons, List.length_nil]
        omega

/-! ## Errors of the tree queries -/

theorem getObjectsByIds_error (s : Store) (ks : List String) (e : Kind)
    (h : getObjectsByIds s ks = Except.error e) : e = Kind.DatabaseError := by
  induction ks with
  | nil => simp [getObjectsByIds] at h
  | cons k rest ih =>
    simp only [getObjectsByIds] at h
    cases hk : s.strings k with
    | none => simp [hk] at h; exact h.symm
    | some bytes =>
      simp only [hk] at h
      cases hr : getObjectsByIds s rest with
      | error e2 => simp [hr] at h; subst h; exact ih hr
      | ok objs => simp [hr] at h

theorem decodeLevel_error (objs : List Payload) (e : Kind)
    (h : decodeLevel objs = Except.error e) : e = Kind.DatabaseError := by
  induction objs with
  | nil => simp [decodeLevel] at h
  | cons obj rest ih =>
    simp only [decodeLevel] at h
    cases hu : jsonUnmarshal obj with
    | none => simp [hu] at h; exact h.symm
    | some d =>
      simp only [hu] at h
      by_cases hself : d.Name = d.Parent
      · simp [hself] at h; exact h.symm
      · simp only [hself, if_false] at h
        cases hr : decodeLevel rest with
        | error e2 => simp [hr] at h; subst h; exact ih hr
        | ok ds => simp [hr] at h

theorem decodeLevel_self_parent (objs : List Payload) (d : Device)
    (hmem : Payload.json d ∈ objs) (hself : d.Name = d.Parent) :
    decodeLevel objs = Except.error Kind.DatabaseError := by
  induction objs with
  | nil => simp at hmem
  | cons obj rest ih =>
    simp only [decodeLevel]
    cases hu : jsonUnmarshal obj with
    | none => rfl
    | some d2 =>
      simp only []
      by_cases hself2 : d2.Name = d2.Parent
      · simp [hself2]
      · simp only [hself2, if_false]
        rcases List.mem_cons.mp hmem with hobj | hrest
        · exfalso
          rw [← hobj] at hu
          simp only [jsonUnmarshal, Option.some.injEq] at hu
          rw [← hu] at hself2
          exact hself2 hself
        · rw [ih hrest]

theorem deviceTreeLevel_error (s : Store) (parent : String) (labels : List String) (e : Kind)
    (h : deviceTreeLevel s parent labels = Except.error e) : e = Kind.DatabaseError := by
  simp only [deviceTreeLevel] at h
  cases hi : intersectionObjectsByKeys s (levelQueryList parent labels) with
  | error e2 =>
    simp only [hi, Except.error.injEq] at h
    rw [← h]
    cases hq : levelQueryList parent labels with
    | nil => rw [hq] at hi; simp [intersectionObjectsByKeys] at hi
    | cons key others =>
      rw [hq] at hi
      exact getObjectsByIds_error s _ e2 hi
  | ok objs =>
    simp only [hi] at h
    exact decodeLevel_error objs e h

theorem appendSubTrees_error (f : String → Except Kind (List Device)) (ms : List Device)
    (hf : ∀ name e, f name = Except.error e → e = Kind.DatabaseError) (e : Kind)
    (h : appendSubTrees f ms = Except.error e) : e = Kind.DatabaseError := by
  induction ms with
  | nil => simp [appendSubTrees] at h
  | cons m rest ih =>
    simp only [appendSubTrees] at h
    cases hm : f m.Name with
    | error e2 => simp [hm] at h; rw [← h]; exact hf _ _ hm
    | ok sub =>
      simp only [hm] at h
      cases hr : appendSubTrees f rest with
      | error e2 => simp [hr] at h; subst h; exact ih hr
      | ok more => simp [hr] at h

theorem appendSubTrees_fails (f : String → Except Kind (List Device)) (ms : List Device)
    (hf : ∀ name e, f name = Except.error e → e = Kind.DatabaseError) (m : Device)
    (hm : m ∈ ms) (hfail : f m.Name = Except.error Kind.DatabaseError) :
    appendSubTrees f ms = Except.error Kind.DatabaseError := by
  induction ms with
  | nil => simp at hm
  | cons m2 rest ih =>
    simp only [appendSubTrees]
    cases hm2 : f m2.Name with
    | error e2 => simp only []; rw [hf _ _ hm2]
    | ok sub =>
      simp only []
      rcases List.mem_cons.mp hm with h1 | h1
      · rw [h1, hm2] at hfail; cases hfail
      · rw [ih h1]

theorem deviceSubTree_error (s : Store) (labels : List String) :
    ∀ (n : Nat) (parent : String) (e : Kind),
      deviceSubTree s labels n parent = Except.error e → e = Kind.DatabaseError := by
  intro n
  induction n with
  | zero => intro parent e h; simp [deviceSubTree] at h
  | succ n ih =>
    intro parent e h
    cases n with
    | zero => exact deviceTreeLevel_error s parent labels e h
    | succ m =>
      rw [deviceSubTree_succ_succ] at h
      cases hl : deviceTreeLevel s parent labels with
      | error e2 =>
        simp only [hl, Except.error.injEq] at h
        rw [← h]; exact deviceTreeLevel_error s parent labels e2 hl
      | ok ms =>
        simp only [hl] at h
        cases ha : appendSubTrees (fun name => deviceSubTree s labels (m + 1) name) ms with
        | error e2 =>
          simp only [ha, Except.error.injEq] at h
          rw [← h]
          exact appendSubTrees_error _ ms (fun name e3 h3 => ih name e3 h3) e2 ha
        | ok more => simp [ha] at h

theorem deviceSubTree_fetches_error (s : Store) (labels : List String) (q : String)
    (hq : deviceTreeLevel s q labels = Except.error Kind.DatabaseError) :
    ∀ (n : Nat) (parent : String), Fetches s labels n parent q →
      deviceSubTree s labels n parent = Except.error Kind.DatabaseError := by
  intro n
  induction n with
  | zero => intro parent h; exact absurd h (by simp [Fetches])
  | succ n ih =>
    intro parent h
    cases n with
    | zero =>
      have : q = parent := h
      rw [← this]; exact hq
    | succ m =>
      rw [deviceSubTree_succ_succ]
      rcases h with h | ⟨ms, hms, mm, hmem, hbelow⟩
      · rw [← h, hq]
      · rw [hms]
        simp only []
        rw [appendSubTrees_fails _ ms (fun name e3 h3 => deviceSubTree_error s labels _ name e3 h3)
          mm hmem (ih mm.Name hbelow)]

/-! ## C6: tree pagination -/

/-- C6, as stated, fails: in `twinStore` the subtree of "a" over 32 levels
materialises into `2 ^ 33 - 2` devices and `deviceTree` returns the total
`uint32(2 ^ 33 - 2)`, which is not the size of the list. -/
theorem deviceTree_total_differs_from_size :
    ∃ L r, deviceSubTree twinStore [] 32 "a" = Except.ok L ∧
      deviceTree twinStore "a" 32 0 0 [] = some r ∧ r.err = none ∧ r.total ≠ L.length := by
  obtain ⟨La, _, ha, _, hla, _⟩ := twinStore_subTree_length 32
  have h := deviceTree_of_subTree twinStore "a" 32 0 0 [] La ha
  refine ⟨La, _, ha, h, rfl, ?_⟩
  show toUint32 La.length ≠ La.length
  unfold toUint32
  norm_num at hla ⊢
  omega

/-- C6 (amended): when the subtree materialises without error into a list `L`
of size `n`, `deviceTree` returns without a slice panic and without error, the
total is `uint32(n)` (which is `n` whenever `n < 2 ^ 32`), and with
`o = max(offset, 0)` the page is empty when `o >= n` and otherwise the
contiguous slice `L[o : o + k]`, where `k = limit` if `0 < limit < n - o` and
`k = n - o` otherwise; the bounds satisfy `0 <= o` and `o + k <= n`. -/
theorem deviceTree_pagination (s : Store) (parent : String) (levels offset limit : Int)
    (labels : List String) (L : List Device)
    (hL : deviceSubTree s labels (if levels ≤ 0 then MaxInt else levels).toNat parent
      = Except.ok L) :
    ∃ r, deviceTree s parent levels offset limit labels = some r ∧ r.err = none ∧
      r.total = L.length % 2 ^ 32 ∧ (L.length < 2 ^ 32 → r.total = L.length) ∧
      ((L.length : Int) ≤ max offset 0 → r.page = []) ∧
      (max offset 0 < (L.length : Int) →
        ∃ o k : Nat, (o : Int) = max offset 0 ∧
          (k : Int) = (if 0 < limit ∧ limit < (L.length : Int) - max offset 0 then limit
                       else (L.length : Int) - max offset 0) ∧
          o + k ≤ L.length ∧ r.page = (L.drop o).take k ∧ r.page.length = k) := by
  refine ⟨_, deviceTree_of_subTree s parent levels offset limit labels L hL, rfl, rfl, ?_, ?_, ?_⟩
  · intro h
    exact Nat.mod_eq_of_lt h
  · intro h
    simp [h]
  · intro h
    have h0 : (0 : Int) ≤ max offset 0 := le_max_right _ _
    have hnot : ¬ (L.length : Int) ≤ max offset 0 := not_le.mpr h
    refine ⟨(max offset 0).toNat,
      (if 0 < limit ∧ limit < (L.length : Int) - max offset 0 then limit
        else (L.length : Int) - max offset 0).toNat, Int.toNat_of_nonneg h0, ?_, ?_, ?_, ?_⟩
    · apply Int.toNat_of_nonneg
      split_ifs with hl
      · exact le_of_lt hl.1
      · omega
    · split_ifs with hl <;> omega
    · simp [hnot]
    · simp only [ge_iff_le, hnot, if_false, List.length_take, List.length_drop]
      split_ifs with hl <;> omega

/-- Witness for C6: the level of "a" in `twinStore`, second page of size 1. -/
theorem deviceTree_pagination_witness :
    ∃ r, deviceTree twinStore "a" 1 1 1 [] = some r ∧ r.err = none ∧
      r.total = 2 % 2 ^ 32 ∧ r.page.length = 1 := by
  obtain ⟨r, h1, h2, h3, _, _, h6⟩ :=
    deviceTree_pagination twinStore "a" 1 1 1 [] _ twinStore_level_a
  obtain ⟨o, k, _, hk, _, _, hlen⟩ := h6 (by decide)
  refine ⟨r, h1, h2, h3, ?_⟩
  rw [hlen]
  have : (k : Int) = 1 := by rw [hk]; decide
  omega

/-! ## C7: total and page of `deviceTree` -/

/-- C7, as stated, fails: in `twinStore`, for the subtree of "a" over 32
levels (a list of `2 ^ 33 - 2` devices), the total returned with offset 0 and
limit 0 is not the length of the page returned with offset 0 and a limit as
large as the subtree, and the page at the offset equal to the total is not
empty. -/
theorem deviceTree_total_not_page_length :
    ∃ L r0 r1 r2, deviceSubTree twinStore [] 32 "a" = Except.ok L ∧
      (L.length : Int) ≤ 2 ^ 33 ∧
      deviceTree twinStore "a" 32 0 0 [] = some r0 ∧
      deviceTree twinStore "a" 32 0 (2 ^ 33) [] = some r1 ∧
      r0.total ≠ r1.page.length ∧
      deviceTree twinStore "a" 32 r0.total 0 [] = some r2 ∧ r2.page ≠ [] := by
  obtain ⟨La, _, ha, _, hla, _⟩ := twinStore_subTree_length 32
  have hlen : La.length = 8589934590 := by norm_num at hla; omega
  have h0 := deviceTree_of_subTree twinStore "a" 32 0 0 [] La ha
  have h1 := deviceTree_of_subTree twinStore "a" 32 0 (2 ^ 33) [] La ha
  have h2 := deviceTree_of_subTree twinStore "a" 32 (toUint32 La.length) 0 [] La ha
  have htot : toUint32 La.length = 4294967294 := by rw [hlen]; rfl
  refine ⟨La, _, _, _, ha, ?_, h0, h1, ?_, h2, ?_⟩
  · rw [hlen]; norm_num
  · show toUint32 La.length ≠ List.length _
    rw [htot]
    simp [hlen]
  · show (if _ then _ else _) ≠ []
    rw [htot]
    simp only [hlen]
    norm_num
    omega

/-- C7 (amended): when the query succeeds with a materialised list `L` of
fewer than `2 ^ 32` devices, the total returned with offset 0 and limit 0 is
`uint32(len L)`, it equals the length of the page returned with offset 0 and
any limit at least `len L`, and for every offset at or past the total (and any
limit) the page is empty and the total is that same value. -/
theorem deviceTree_total_consistent (s : Store) (parent : String) (levels : Int)
    (labels : List String) (L : List Device)
    (hL : deviceSubTree s labels (if levels ≤ 0 then MaxInt else levels).toNat parent
      = Except.ok L)
    (hsmall : L.length < 2 ^ 32) :
    ∃ r0, deviceTree s parent levels 0 0 labels = some r0 ∧ r0.err = none ∧
      r0.total = toUint32 L.length ∧
      (∀ limit : Int, (L.length : Int) ≤ limit →
        ∃ r, deviceTree s parent levels 0 limit labels = some r ∧ r.err = none ∧
          r.page.length = r0.total) ∧
      (∀ offset limit : Int, (r0.total : Int) ≤ offset →
        ∃ r, deviceTree s parent levels offset limit labels = some r ∧ r.err = none ∧
          r.page = [] ∧ r.total = r0.total) := by
  have htot : toUint32 L.length = L.length := Nat.mod_eq_of_lt hsmall
  refine ⟨_, deviceTree_of_subTree s parent levels 0 0 labels L hL, rfl, rfl, ?_, ?_⟩
  · intro limit hlimit
    refine ⟨_, deviceTree_of_subTree s parent levels 0 limit labels L hL, rfl, ?_⟩
    show List.length (if _ then _ else _) = toUint32 L.length
    rw [htot]
    have h0 : max (0 : Int) 0 = 0 := max_self 0
    simp only [h0, ge_iff_le, sub_zero, Int.toNat_zero, List.drop_zero]
    split_ifs with h1 h2
    · have : L.length = 0 := by omega
      simp [this]
    · omega
    · simp
  · intro offset limit hoff
    refine ⟨_, deviceTree_of_subTree s parent levels offset limit labels L hL, rfl, ?_, rfl⟩
    show (if _ then _ else _) = []
    have : (L.length : Int) ≤ max offset 0 := by
      have h1 : ((toUint32 L.length : Nat) : Int) ≤ offset := hoff
      rw [htot] at h1
      exact le_trans h1 (le_max_left _ _)
    simp [this]

/-- Witness for C7: the level of "a" in `twinStore`. -/
theorem deviceTree_total_consistent_witness :
    ∃ r0, deviceTree twinStore "a" 1 0 0 [] = some r0 ∧ r0.total = 2 ∧
      (∃ r, deviceTree twinStore "a" 1 0 5 [] = some r ∧ r.page.length = r0.total) ∧
      (∃ r, deviceTree twinStore "a" 1 2 0 [] = some r ∧ r.page = []) := by
  obtain ⟨r0, h1, _, h3, h4, h5⟩ :=
    deviceTree_total_consistent twinStore "a" 1 [] _ twinStore_level_a (by decide)
  have ht : r0.total = 2 := by rw [h3]; rfl
  obtain ⟨r, hr, _, hlen⟩ := h4 5 (by decide)
  obtain ⟨r', hr', _, hpage, _⟩ := h5 2 0 (by rw [ht]; decide)
  exact ⟨r0, h1, ht, ⟨r, hr, hlen⟩, ⟨r', hr', hpage⟩⟩

/-! ## C8: the self-parent guard -/

/-- C8: when a level that the evaluation of `deviceSubTree` asks for (the
level of `q`) holds a device whose name equals its parent, the fetch of that
level fails with `DatabaseError`, so no member of it is recursed into, and
`deviceSubTree` (a total function: the evaluation terminates) fails with
`DatabaseError`; `deviceTree` then returns total 0, an empty page and that
error. -/
theorem self_parent_guard (s : Store) (labels : List String) (n : Nat) (parent q : String)
    (objs : List Payload) (d : Device)
    (hfetch : Fetches s labels n parent q)
    (hobjs : intersectionObjectsByKeys s (levelQueryList q labels) = Except.ok objs)
    (hmem : Payload.json d ∈ objs) (hself : d.Name = d.Parent) :
    deviceTreeLevel s q labels = Except.error Kind.DatabaseError ∧
    deviceSubTree s labels n parent = Except.error Kind.DatabaseError ∧
    ∀ levels offset limit : Int, (if levels ≤ 0 then MaxInt else levels).toNat = n →
      deviceTree s parent levels offset limit labels =
        some { total := 0, page := [], err := some Kind.DatabaseError } := by
  have hlevel : deviceTreeLevel s q labels = Except.error Kind.DatabaseError := by
    simp only [deviceTreeLevel, hobjs]
    exact decodeLevel_self_parent objs d hmem hself
  have hsub := deviceSubTree_fetches_error s labels q hlevel n parent hfetch
  refine ⟨hlevel, hsub, ?_⟩
  intro levels offset limit hn
  simp only [deviceTree, hn, hsub]

/-- Witness for C8: in `selfParentStore` the unbounded tree query on "a"
fails. -/
theorem self_parent_guard_witness :
    deviceSubTree selfParentStore [] MaxInt.toNat "a" = Except.error Kind.DatabaseError ∧
    deviceTree selfParentStore "a" 0 0 0 [] =
      some { total := 0, page := [], err := some Kind.DatabaseError } := by
  have h := self_parent_guard selfParentStore [] MaxInt.toNat "a" "a"
    [Payload.json { plainDevice "1" "a" "a" with Created := 1, Modified := 1 }]
    { plainDevice "1" "a" "a" with Created := 1, Modified := 1 }
    (Or.inl rfl) (by decide) (by simp) rfl
  exact ⟨h.2.1, h.2.2 0 0 0 rfl⟩

/-! ## C9: the shape of the subtree recursion -/

/-- C9: `deviceSubTree` with levels 0 returns the empty list; with levels 1 it
returns what `deviceTreeLevel` returns; with levels `n + 2`, when the level
`[m1..mk]` and every `deviceSubTree(mi.Name, n + 1)` succeed, it returns the
level followed by those subtrees in that order; and `deviceTree` with
`levels <= 0` materialises `deviceSubTree` with `math.MaxInt` levels. -/
theorem deviceSubTree_shape (s : Store) (labels : List String) (parent : String) :
    deviceSubTree s labels 0 parent = Except.ok [] ∧
    deviceSubTree s labels 1 parent = deviceTreeLevel s parent labels ∧
    (∀ (n : Nat) (ms : List Device) (subs : List (List Device)),
      deviceTreeLevel s parent labels = Except.ok ms →
      List.Forall₂ (fun m sub => deviceSubTree s labels (n + 1) m.Name = Except.ok sub) ms subs →
      deviceSubTree s labels (n + 2) parent = Except.ok (ms ++ subs.flatten)) ∧
    (∀ levels : Int, levels ≤ 0 →
      (∀ L, deviceSubTree s labels (2 ^ 63 - 1) parent = Except.ok L →
        deviceTree s parent levels 0 0 labels =
          some { total := toUint32 L.length, page := L, err := none }) ∧
      (∀ e, deviceSubTree s labels (2 ^ 63 - 1) parent = Except.error e →
        ∀ offset limit, deviceTree s parent levels offset limit labels =
          some { total := 0, page := [], err := some e })) := by
  refine ⟨rfl, rfl, ?_, ?_⟩
  · intro n ms subs hlevel hsubs
    rw [deviceSubTree_succ_succ, hlevel]
    simp only []
    rw [appendSubTrees_of_forall₂ _ ms subs hsubs]
  · intro levels hlevels
    have hn : (if levels ≤ 0 then MaxInt else levels).toNat = 2 ^ 63 - 1 := by
      simp only [hlevels, if_true]; decide
    constructor
    · intro L hL
      rw [← hn] at hL
      rw [deviceTree_of_subTree s parent levels 0 0 labels L hL]
      have h0 : max (0 : Int) 0 = 0 := max_self 0
      simp only [h0, ge_iff_le, sub_zero, Int.toNat_zero, List.drop_zero, lt_self_iff_false,
        false_and, if_false, Int.toNat_ofNat, List.take_length]
      split_ifs with h
      · have : L.length = 0 := by omega
        rw [List.length_eq_zero.mp this]
      · rfl
    · intro e he offset limit
      rw [← hn] at he
      simp only [deviceTree, he]

/-- Witness for C9: two levels below "a" in `twinStore`. -/
theorem deviceSubTree_shape_witness :
    ∃ ms sub, deviceTreeLevel twinStore "a" [] = Except.ok ms ∧
      deviceTreeLevel twinStore "b" [] = Except.ok sub ∧
      deviceSubTree twinStore [] 2 "a" = Except.ok (ms ++ [sub, sub].flatten) :=
  ⟨_, _, twinStore_level_a, twinStore_level_b,
    (deviceSubTree_shape twinStore [] "a").2.2.1 0 _ [_, _] twinStore_level_a
      (List.Forall₂.cons twinStore_level_b
        (List.Forall₂.cons twinStore_level_b List.Forall₂.nil))⟩

/-! ## Sorted-set commands -/

theorem ZSet.mem_rem (m x : String) (z : ZSet) :
    x ∈ ZSet.members (ZSet.rem m z) ↔ x ≠ m ∧ x ∈ ZSet.members z := by
  simp only [ZSet.members, ZSet.rem, List.mem_map, List.mem_filter, decide_eq_true_eq]
  constructor
  · rintro ⟨p, ⟨hp, hne⟩, rfl⟩
    exact ⟨hne, p, hp, rfl⟩
  · rintro ⟨hne, p, hp, rfl⟩
    exact ⟨p, ⟨hp, hne⟩, rfl⟩

theorem ZSet.mem_place (m x : String) (sc : Int) (z : ZSet) :
    x ∈ ZSet.members (ZSet.place m sc z) ↔ x = m ∨ x ∈ ZSet.members z := by
  induction z with
  | nil => simp [ZSet.place, ZSet.members]
  | cons p rest ih =>
    obtain ⟨m2, sc2⟩ := p
    simp only [ZSet.place]
    split_ifs with h
    · simp [ZSet.members]
    · simp only [ZSet.members, List.map_cons, List.mem_cons] at ih ⊢
      rw [ih]
      tauto

theorem ZSet.mem_add (m x : String) (sc : Int) (z : ZSet) :
    x ∈ ZSet.members (ZSet.add m sc z) ↔ x = m ∨ x ∈ ZSet.members z := by
  rw [ZSet.add, ZSet.mem_place, ZSet.mem_rem]
  by_cases h : x = m <;> simp [h]

theorem ZSet.rem_place (m : String) (sc : Int) (z : ZSet) :
    ZSet.rem m (ZSet.place m sc z) = ZSet.rem m z := by
  induction z with
  | nil => simp [ZSet.place, ZSet.rem]
  | cons p rest ih =>
    obtain ⟨m2, sc2⟩ := p
    simp only [ZSet.place]
    split_ifs with h
    · simp [ZSet.rem, List.filter_cons]
    · simp only [ZSet.rem, List.filter_cons] at ih ⊢
      rw [ih]

theorem ZSet.rem_rem (m : String) (z : ZSet) : ZSet.rem m (ZSet.rem m z) = ZSet.rem m z := by
  simp [ZSet.rem, List.filter_filter]

theorem ZSet.rem_add (m : String) (sc : Int) (z : ZSet) :
    ZSet.rem m (ZSet.add m sc z) = ZSet.rem m z := by
  rw [ZSet.add, ZSet.rem_place, ZSet.rem_rem]

theorem ZSet.rem_of_not_mem (m : String) (z : ZSet) (h : m ∉ ZSet.members z) :
    ZSet.rem m z = z := by
  simp only [ZSet.rem, List.filter_eq_self, decide_eq_true_eq]
  intro p hp hpm
  apply h
  simp only [ZSet.members, List.mem_map]
  exact ⟨p, hp, hpm⟩

theorem EXEC_append (q1 q2 : List Cmd) (s : Store) : EXEC (q1 ++ q2) s = EXEC q2 (EXEC q1 s) := by
  simp [EXEC, List.foldl_append]

theorem EXEC_cons (c : Cmd) (q : List Cmd) (s : Store) : EXEC (c :: q) s = EXEC q (c.run s) := rfl

theorem EXEC_nil (s : Store) : EXEC [] s = s := rfl

/-- The store after `ZADD`s of one member under the listed keys and scores. -/
theorem EXEC_zadd_map (member : String) (ps : List (String × Int)) :
    ∀ s : Store,
      (EXEC (ps.map (fun p => Cmd.ZADD p.1 p.2 member)) s).strings = s.strings ∧
      (EXEC (ps.map (fun p => Cmd.ZADD p.1 p.2 member)) s).hashes = s.hashes ∧
      (EXEC (ps.map (fun p => Cmd.ZADD p.1 p.2 member)) s).profiles = s.profiles ∧
      (∀ z x, x ∈ ZSet.members ((EXEC (ps.map (fun p => Cmd.ZADD p.1 p.2 member)) s).zsets z) ↔
        (x = member ∧ z ∈ ps.map Prod.fst) ∨ x ∈ ZSet.members (s.zsets z)) ∧
      (∀ z, ZSet.rem member ((EXEC (ps.map (fun p => Cmd.ZADD p.1 p.2 member)) s).zsets z)
        = ZSet.rem member (s.zsets z)) ∧
      (∀ z, z ∉ ps.map Prod.fst →
        (EXEC (ps.map (fun p => Cmd.ZADD p.1 p.2 member)) s).zsets z = s.zsets z) := by
  induction ps with
  | nil => intro s; simp [EXEC_nil]
  | cons p rest ih =>
    intro s
    simp only [List.map_cons, EXEC_cons]
    obtain ⟨h1, h2, h3, h4, h5, h6⟩ := ih ((Cmd.ZADD p.1 p.2 member).run s)
    refine ⟨h1, h2, h3, ?_, ?_, ?_⟩
    · intro z x
      rw [h4]
      simp only [Cmd.run, List.mem_cons]
      by_cases hz : z = p.1
      · simp only [hz, if_true, ZSet.mem_add, true_or]
        tauto
      · simp only [hz, if_false, false_or]
    · intro z
      rw [h5]
      simp only [Cmd.run]
      by_cases hz : z = p.1
      · simp only [hz, if_true, ZSet.rem_add]
      · simp only [hz, if_false]
    · intro z hz
      simp only [List.mem_cons, not_or] at hz
      rw [h6 z hz.2]
      simp only [Cmd.run, hz.1, if_false]

/-- The store after `ZREM`s of one member under the listed keys. -/
theorem EXEC_zrem_map (member : String) (ks : List String) :
    ∀ s : Store,
      (EXEC (ks.map (fun k => Cmd.ZREM k member)) s).strings = s.strings ∧
      (EXEC (ks.map (fun k => Cmd.ZREM k member)) s).hashes = s.hashes ∧
      (EXEC (ks.map (fun k => Cmd.ZREM k member)) s).profiles = s.profiles ∧
      (∀ z, (EXEC (ks.map (fun k => Cmd.ZREM k member)) s).zsets z
        = if z ∈ ks then ZSet.rem member (s.zsets z) else s.zsets z) := by
  induction ks with
  | nil => intro s; simp [EXEC_nil]
  | cons k rest ih =>
    intro s
    simp only [List.map_cons, EXEC_cons]
    obtain ⟨h1, h2, h3, h4⟩ := ih ((Cmd.ZREM k member).run s)
    refine ⟨h1, h2, h3, ?_⟩
    intro z
    rw [h4]
    simp only [Cmd.run, List.mem_cons]
    by_cases hz : z = k
    · simp only [hz, if_true, true_or, ZSet.rem_rem]
      split_ifs <;> rfl
    · simp only [hz, if_false, false_or]

/-! ## The two batches in closed form -/

theorem indexKeys_eq (d : Device) :
    indexKeys d =
      [DeviceCollection, CreateKey DeviceCollectionServiceName d.ServiceName,
        CreateKey DeviceCollectionProfileName d.ProfileName]
      ++ d.Labels.map (fun label => CreateKey DeviceCollectionLabel label)
      ++ (if d.Parent ≠ "" then [CreateKey DeviceCollectionParent d.Parent] else []) := by
  simp only [indexKeys, indexEntries, List.map_append, List.map_cons, List.map_nil,
    List.map_map, Function.comp]
  by_cases hp : d.Parent = "" <;> simp [hp]

theorem sendAddDeviceCmd_eq (k : String) (d : Device) :
    sendAddDeviceCmd k d = Except.ok
      ([Cmd.SET k (Payload.json d), Cmd.ZADD DeviceCollection 0 k,
        Cmd.HSET DeviceCollectionName d.Name k]
        ++ ((indexEntries d).tail.map (fun p => Cmd.ZADD p.1 p.2 k))) := by
  simp only [sendAddDeviceCmd, jsonMarshal, indexEntries, List.cons_append, List.nil_append,
    List.tail_cons, List.map_append, List.map_cons, List.map_map, Function.comp]
  by_cases hp : d.Parent = "" <;> simp [hp]

theorem sendDeleteDeviceCmd_eq (k : String) (d : Device) :
    sendDeleteDeviceCmd k d =
      [Cmd.DEL k, Cmd.ZREM DeviceCollection k, Cmd.HDEL DeviceCollectionName d.Name]
        ++ ((indexKeys d).tail.map (fun z => Cmd.ZREM z k)) := by
  simp only [sendDeleteDeviceCmd, indexKeys, indexEntries, List.cons_append, List.nil_append,
    List.tail_cons, List.map_append, List.map_cons, List.map_map, Function.comp]
  by_cases hp : d.Parent = "" <;> simp [hp]

/-- The store after the batch of `sendAddDeviceCmd`. -/
theorem EXEC_add (k : String) (d : Device) (q : List Cmd) (s : Store)
    (hq : sendAddDeviceCmd k d = Except.ok q) :
    (EXEC q s).strings = (fun x => if x = k then some (Payload.json d) else s.strings x) ∧
    (EXEC q s).hashes = (fun h f =>
      if h = DeviceCollectionName ∧ f = d.Name then some k else s.hashes h f) ∧
    (EXEC q s).profiles = s.profiles ∧
    (∀ z x, x ∈ ZSet.members ((EXEC q s).zsets z) ↔
      (x = k ∧ z ∈ indexKeys d) ∨ x ∈ ZSet.members (s.zsets z)) ∧
    (∀ z, ZSet.rem k ((EXEC q s).zsets z) = ZSet.rem k (s.zsets z)) ∧
    (∀ z, z ∉ indexKeys d → (EXEC q s).zsets z = s.zsets z) := by
  rw [sendAddDeviceCmd_eq] at hq
  cases hq
  rw [EXEC_append]
  obtain ⟨h1, h2, h3, h4, h5, h6⟩ := EXEC_zadd_map k (indexEntries d).tail
    (EXEC [Cmd.SET k (Payload.json d), Cmd.ZADD DeviceCollection 0 k,
        Cmd.HSET DeviceCollectionName d.Name k] s)
  have hkeys : indexKeys d = DeviceCollection :: (indexEntries d).tail.map Prod.fst := by
    simp [indexKeys, indexEntries]
  refine ⟨?_, ?_, ?_, ?_, ?_, ?_⟩
  · rw [h1]; rfl
  · rw [h2]; rfl
  · rw [h3]; rfl
  · intro z x
    rw [h4, hkeys]
    simp only [EXEC, List.foldl_cons, List.foldl_nil, Cmd.run, List.mem_cons]
    by_cases hz : z = DeviceCollection
    · simp only [hz, if_true, ZSet.mem_add, true_or]
      tauto
    · simp only [hz, if_false, false_or]
  · intro z
    rw [h5]
    simp only [EXEC, List.foldl_cons, List.foldl_nil, Cmd.run]
    by_cases hz : z = DeviceCollection
    · simp only [hz, if_true, ZSet.rem_add]
    · simp only [hz, if_false]
  · intro z hz
    rw [hkeys] at hz
    simp only [List.mem_cons, not_or] at hz
    rw [h6 z hz.2]
    simp only [EXEC, List.foldl_cons, List.foldl_nil, Cmd.run, hz.1, if_false]

/-- The store after the batch of `sendDeleteDeviceCmd`. -/
theorem EXEC_delete (k : String) (d : Device) (s : Store) :
    (EXEC (sendDeleteDeviceCmd k d) s).strings = (fun x => if x = k then none else s.strings x) ∧
    (EXEC (sendDeleteDeviceCmd k d) s).hashes = (fun h f =>
      if h = DeviceCollectionName ∧ f = d.Name then none else s.hashes h f) ∧
    (EXEC (sendDeleteDeviceCmd k d) s).profiles = s.profiles ∧
    (∀ z, (EXEC (sendDeleteDeviceCmd k d) s).zsets z
      = if z ∈ indexKeys d then ZSet.rem k (s.zsets z) else s.zsets z) := by
  rw [sendDeleteDeviceCmd_eq, EXEC_append]
  obtain ⟨h1, h2, h3, h4⟩ := EXEC_zrem_map k (indexKeys d).tail
    (EXEC [Cmd.DEL k, Cmd.ZREM DeviceCollection k, Cmd.HDEL DeviceCollectionName d.Name] s)
  have hkeys : indexKeys d = DeviceCollection :: (indexKeys d).tail := by
    simp [indexKeys, indexEntries]
  refine ⟨?_, ?_, ?_, ?_⟩
  · rw [h1]; rfl
  · rw [h2]; rfl
  · rw [h3]; rfl
  · intro z
    rw [h4]
    conv_rhs => rw [hkeys]
    simp only [EXEC, List.foldl_cons, List.foldl_nil, Cmd.run, List.mem_cons]
    by_cases hz : z = DeviceCollection
    · simp only [hz, if_true, true_or, ZSet.rem_rem]
      split_ifs <;> rfl
    · simp only [hz, if_false, false_or]

/-! ## The write operations by cases -/

theorem stamped_fields (ts : Int) (d : Device) :
    (stamped ts d).Id = d.Id ∧ (stamped ts d).Name = d.Name ∧
    (stamped ts d).ServiceName = d.ServiceName ∧ (stamped ts d).ProfileName = d.ProfileName ∧
    (stamped ts d).Parent = d.Parent ∧ (stamped ts d).Labels = d.Labels ∧
    (stamped ts d).Modified = ts := by
  unfold stamped
  split_ifs <;> simp

theorem addDeviceChecked_cases (s : Store) (ts : Int) (d : Device) :
    (((s.strings (deviceStoredKey d.Id)).isSome = true ∨
        (s.hashes DeviceCollectionName d.Name).isSome = true) ∧
      addDeviceChecked s ts d = { store := s, value := d, err := some Kind.DuplicateName }) ∨
    (s.strings (deviceStoredKey d.Id) = none ∧ s.hashes DeviceCollectionName d.Name = none ∧
      ∃ q, sendAddDeviceCmd (deviceStoredKey d.Id) (stamped ts d) = Except.ok q ∧
        addDeviceChecked s ts d =
          { store := EXEC q s, value := stamped ts d, err := none }) := by
  have hid := (stamped_fields ts d).1
  cases h1 : s.strings (deviceStoredKey d.Id) with
  | some v =>
    left
    refine ⟨Or.inl rfl, ?_⟩
    simp [addDeviceChecked, deviceIdExists, objectIdExists, h1]
  | none =>
    cases h2 : s.hashes DeviceCollectionName d.Name with
    | some v =>
      left
      refine ⟨Or.inr rfl, ?_⟩
      simp [addDeviceChecked, deviceIdExists, objectIdExists, h1, deviceNameExists,
        objectNameExists, h2]
    | none =>
      right
      refine ⟨rfl, rfl, _, sendAddDeviceCmd_eq _ _, ?_⟩
      simp only [addDeviceChecked, deviceIdExists, objectIdExists, h1, deviceNameExists,
        objectNameExists, h2, Option.isSome_none]
      have hst : ({ (if d.Created = 0 then { d with Created := ts } else d) with
          Modified := ts } : Device) = stamped ts d := rfl
      have hid2 : (if d.Created = 0 then ({ d with Created := ts } : Device) else d).Id = d.Id := by
        split_ifs <;> rfl
      rw [hst, hid2, sendAddDeviceCmd_eq]

theorem addDevice_cases (s : Store) (ts : Int) (d : Device) :
    ((d.ProfileName ≠ "" ∧ s.profiles d.ProfileName = false) ∧
      addDevice s ts d = { store := s, value := d, err := some Kind.EntityDoesNotExist }) ∨
    (¬(d.ProfileName ≠ "" ∧ s.profiles d.ProfileName = false) ∧
      addDevice s ts d = addDeviceChecked s ts d) := by
  by_cases hp : d.ProfileName = ""
  · right
    refine ⟨fun h => h.1 hp, ?_⟩
    simp [addDevice, hp]
  · cases hs : s.profiles d.ProfileName with
    | false =>
      left
      refine ⟨⟨hp, rfl⟩, ?_⟩
      simp [addDevice, hp, deviceProfileNameExists, hs]
    | true =>
      right
      refine ⟨fun h => by simp at h, ?_⟩
      simp [addDevice, hp, deviceProfileNameExists, hs]

/-- A successful `addDevice`: what held before and what it leaves. -/
theorem addDevice_ok (s : Store) (ts : Int) (d : Device) (h : (addDevice s ts d).err = none) :
    s.strings (deviceStoredKey d.Id) = none ∧ s.hashes DeviceCollectionName d.Name = none ∧
    (addDevice s ts d).value = stamped ts d ∧
    ∃ q, sendAddDeviceCmd (deviceStoredKey d.Id) (stamped ts d) = Except.ok q ∧
      (addDevice s ts d).store = EXEC q s := by
  rcases addDevice_cases s ts d with ⟨_, h1⟩ | ⟨_, h1⟩
  · rw [h1] at h; cases h
  · rcases addDeviceChecked_cases s ts d with ⟨_, h2⟩ | ⟨h3, h4, q, hq, h2⟩
    · rw [h1, h2] at h; cases h
    · rw [h1, h2]
      exact ⟨h3, h4, rfl, q, hq, rfl⟩

theorem deleteDevice_cases (s : Store) (device : Device) :
    ((s.zsets (CreateKey DeviceCollectionParent device.Name)).length > 0 ∧
      deleteDevice s device = { store := s, value := (), err := some Kind.StatusConflict }) ∨
    ((s.zsets (CreateKey DeviceCollectionParent device.Name)).length = 0 ∧
      deleteDevice s device =
        { store := EXEC (sendDeleteDeviceCmd (deviceStoredKey device.Id) device) s,
          value := (), err := none }) := by
  by_cases h : (s.zsets (CreateKey DeviceCollectionParent device.Name)).length > 0
  · left
    refine ⟨h, ?_⟩
    simp [deleteDevice, getMemberNumber, h]
  · right
    have h0 : (s.zsets (CreateKey DeviceCollectionParent device.Name)).length = 0 := by omega
    refine ⟨h0, ?_⟩
    simp [deleteDevice, getMemberNumber, h0]

theorem indexKeys_stamped (ts : Int) (d : Device) : indexKeys (stamped ts d) = indexKeys d := by
  obtain ⟨_, _, h3, h4, h5, h6, _⟩ := stamped_fields ts d
  rw [indexKeys_eq, indexKeys_eq, h3, h4, h5, h6]

theorem Store.ext_fields (a b : Store) (h1 : a.strings = b.strings) (h2 : a.hashes = b.hashes)
    (h3 : a.zsets = b.zsets) (h4 : a.profiles = b.profiles) : a = b := by
  cases a; cases b
  simp only [Store.mk.injEq]
  exact ⟨h1, h2, h3, h4⟩

/-- The delete batch undoes the add batch of the same device and stored key on
a store where the key has no record, the name no entry and the key is in none
of the device's indexes. -/
theorem EXEC_delete_add (k : String) (d : Device) (q : List Cmd) (s : Store)
    (hq : sendAddDeviceCmd k d = Except.ok q)
    (hrec : s.strings k = none) (hname : s.hashes DeviceCollectionName d.Name = none)
    (hfresh : ∀ z, z ∈ indexKeys d → k ∉ ZSet.members (s.zsets z)) :
    EXEC (sendDeleteDeviceCmd k d) (EXEC q s) = s := by
  obtain ⟨a1, a2, a3, _, a5, a6⟩ := EXEC_add k d q s hq
  obtain ⟨b1, b2, b3, b4⟩ := EXEC_delete k d (EXEC q s)
  apply Store.ext_fields
  · rw [b1, a1]
    funext x
    by_cases hx : x = k
    · simp only [hx, if_true, hrec]
    · simp only [hx, if_false]
  · rw [b2, a2]
    funext h f
    by_cases hx : h = DeviceCollectionName ∧ f = d.Name
    · simp only [hx, and_self, if_true]
      rw [hname]
    · simp only [hx, if_false]
  · funext z
    rw [b4]
    by_cases hz : z ∈ indexKeys d
    · rw [if_pos hz, a5, ZSet.rem_of_not_mem _ _ (hfresh z hz)]
    · rw [if_neg hz, a6 z hz]
  · rw [b3, a3]

/-- C1, as stated, fails: in `orphanStore` (reached from the empty store by
calls of the package) the stored key of id "1" is still in the index of label
"x"; `addDevice` of a device with id "1" and label "x" succeeds, `deleteDevice`
of the returned device succeeds, and the index of label "x" is not what it was
before the add. -/
theorem add_delete_changes_label_index :
    (addDevice orphanStore 7 { plainDevice "1" "c" "" with Labels := ["x"] }).err = none ∧
    (deleteDevice
      (addDevice orphanStore 7 { plainDevice "1" "c" "" with Labels := ["x"] }).store
      (addDevice orphanStore 7 { plainDevice "1" "c" "" with Labels := ["x"] }).value).err
      = none ∧
    (deleteDevice
      (addDevice orphanStore 7 { plainDevice "1" "c" "" with Labels := ["x"] }).store
      (addDevice orphanStore 7 { plainDevice "1" "c" "" with Labels := ["x"] }).value).store.zsets
        (CreateKey DeviceCollectionLabel "x")
      ≠ orphanStore.zsets (CreateKey DeviceCollectionLabel "x") := by
  decide

/-- C1 (amended): on a store where the stored key of `d` is in none of the
sorted sets that `d` touches (the global set, its service, profile, label and
parent indexes), if `addDevice(d)` succeeds and `deleteDevice` of the returned
device succeeds, the whole store, so every key touched by `d`, is what it was
before the add; this is the delete batch of `sendDeleteDeviceCmd` undoing the
add batch of `sendAddDeviceCmd` for the same device and stored key. -/
theorem add_then_delete_restores (s : Store) (ts : Int) (d : Device)
    (hfresh : ∀ z, z ∈ indexKeys d → deviceStoredKey d.Id ∉ ZSet.members (s.zsets z))
    (hadd : (addDevice s ts d).err = none)
    (hdel : (deleteDevice (addDevice s ts d).store (addDevice s ts d).value).err = none) :
    (deleteDevice (addDevice s ts d).store (addDevice s ts d).value).store = s ∧
    ∃ q, sendAddDeviceCmd (deviceStoredKey d.Id) (addDevice s ts d).value = Except.ok q ∧
      (addDevice s ts d).store = EXEC q s ∧
      EXEC (sendDeleteDeviceCmd (deviceStoredKey d.Id) (addDevice s ts d).value) (EXEC q s) = s := by
  obtain ⟨hrec, hname, hval, q, hq, hstore⟩ := addDevice_ok s ts d hadd
  obtain ⟨hid, hnm, _⟩ := stamped_fields ts d
  have hundo : EXEC (sendDeleteDeviceCmd (deviceStoredKey d.Id) (stamped ts d)) (EXEC q s) = s := by
    apply EXEC_delete_add _ _ q s hq hrec
    · rw [hnm]; exact hname
    · intro z hz
      rw [indexKeys_stamped] at hz
      exact hfresh z hz
  rw [hval, hstore] at hdel ⊢
  refine ⟨?_, q, hq, rfl, hundo⟩
  rcases deleteDevice_cases (EXEC q s) (stamped ts d) with ⟨_, h1⟩ | ⟨_, h1⟩
  · rw [h1] at hdel; cases hdel
  · rw [h1]
    simp only [hid]
    exact hundo

/-- Witness for C1: a labelled device with a parent, added to the empty store
and deleted. -/
theorem add_then_delete_restores_witness :
    (deleteDevice
      (addDevice Store.empty 1 { plainDevice "1" "a" "p" with Labels := ["x", "y"] }).store
      (addDevice Store.empty 1 { plainDevice "1" "a" "p" with Labels := ["x", "y"] }).value).store
      = Store.empty :=
  (add_then_delete_restores Store.empty 1 { plainDevice "1" "a" "p" with Labels := ["x", "y"] }
    (fun z _ => by simp [Store.empty, ZSet.members]) (by decide) (by decide)).1

/-! ## The store invariant -/

end RedisDevice
